import Mathlib

/-
Verification development for the JsonX library (declarative C layer over cJSON
with an embedded-first memory model).

The definitions below are a shallow embedding of the C sources:
  * `jx_types.h` / `jx_config.h` : enums, the `JX_ELEMENT` record, limits;
  * `jx_internal.h`              : the inline setter helpers (`jx_set_bool`,
                                   `jx_set_string`, ...);
  * `jx_parser.c`                : `jx_init` (all four backend variants),
                                   `jx_struct_to_json`, `jx_json_to_struct`,
                                   `_jx_struct_to_object`, `_jx_object_to_struct`;
  * `jx_static_allocator.c`      : the bump allocator (`jx_static_malloc`,
                                   `jx_static_free`, `jx_static_reset`).

Modelling conventions:
  * size_t arithmetic is modelled as Nat reduced mod 2^32 (the STM32 / Cortex-M
    targets named by the project README); wrap-around is kept where the C code
    computes in size_t.
  * `double` payloads are only ever copied verbatim by this library (no
    arithmetic), so the numeric payload is modelled by an opaque-but-decidable
    carrier, `Int`.
  * Caller string buffers are `List Char` (the bytes `value_p` points at); the
    C-string value of such a buffer is its prefix up to the first NUL byte.
  * The external codec (cJSON's tokenizer/printer) is out of scope per the
    design document and assumed correct: rendered text is identified with the
    value tree it renders to / parses from.  A decode input of `none` models
    text that the external parser rejects.
  * C functions that mutate caller memory in place are written as functions
    from the old element list to the new one; `JX_STATUS` results are returned
    alongside.  Reads or writes the C code would perform beyond a declared
    child sequence (pointer arithmetic past the caller-owned array) cannot be
    given a value in a per-field model; the decoder records any such access in
    an explicit `oob` flag and otherwise skips it.
  * Recursion in the engine walks is fuel-indexed; the walk of the C code is
    reproduced exactly whenever the fuel exceeds the nesting depth of the
    element tree (`needL` below computes the required bound).
-/

namespace JsonX

/-! ### jx_types.h / jx_config.h : enums and limits -/

/-- `JX_PROPERTY_MAX_SIZE` from jx_config.h. -/
def JX_PROPERTY_MAX_SIZE : Nat := 50

/-- size_t modulus on the 32-bit embedded targets the library is written for. -/
def SIZE_T_MOD : Nat := 2 ^ 32

/-- `ALIGN_4(x)  (((x) + 3) & ~3)` computed in size_t arithmetic.  Masking with
`~3` clears the two least-significant bits, i.e. subtracts the residue mod 4. -/
def ALIGN_4 (x : Nat) : Nat :=
  ((x + 3) % SIZE_T_MOD) - ((x + 3) % SIZE_T_MOD) % 4

/-- Parser internal state (`JX_STATE`). -/
inductive JX_STATE where
  | JX_RESET
  | JX_INITIALIZED
deriving DecidableEq

/-- General status codes (`JX_STATUS`). -/
inductive JX_STATUS where
  | JX_SUCCESS
  | JX_ERROR
deriving DecidableEq

/-- Parsing mode (`JX_PARSE_MODE`). -/
inductive JX_PARSE_MODE where
  | JX_MODE_RELAXED
  | JX_MODE_STRICT
deriving DecidableEq

/-- Element update status (`JX_ELEMENT_STATUS`). -/
inductive JX_ELEMENT_STATUS where
  | JX_ELEMENT_NOT_UPDATED
  | JX_ELEMENT_UPDATED
deriving DecidableEq

/-- Element type tag (`JX_ELEMENT_TYPE`). -/
inductive JX_ELEMENT_TYPE where
  | JX_INVALID
  | JX_NULL
  | JX_BOOLEAN
  | JX_NUMBER
  | JX_STRING
  | JX_ARRAY
  | JX_OBJECT
deriving DecidableEq

/-- NUL byte terminating C strings. -/
def nullChar : Char := Char.ofNat 0

/-- C-string value of a caller buffer: the bytes before the first NUL. -/
def cstrList (buf : List Char) : List Char :=
  buf.takeWhile (fun c => c != nullChar)

/-- `strncpy(dest, src, n)`: copies at most `n` bytes of `src`; once `src` is
exhausted the remaining of the `n` positions are NUL-filled; positions of
`dest` beyond `n` are untouched.  `src` is the C-string content (no
terminator). -/
def strncpy : List Char → List Char → Nat → List Char
  | d, _, 0 => d
  | [], _, _ + 1 => []
  | _ :: d, [], n + 1 => nullChar :: strncpy d [] n
  | _ :: d, a :: s, n + 1 => a :: strncpy d s n

/-! ### The caller-owned cell addressed by `value_p`

`value_p` is an untyped pointer in C; each element reads/writes it at the type
its tag declares.  The cell is modelled as a tagged value; writing through a
binding whose cell has a different shape is caller undefined behaviour
(excluded by every well-formedness predicate below) and is modelled as leaving
the cell unchanged. -/

inductive JX_VALUE where
  | vNone
  | vBool (b : Bool)
  | vNum (x : Int)
  | vStr (buf : List Char)
  | vU32 (n : Nat)
deriving DecidableEq

/-- `*(bool *)p = b` -/
def writeBool : JX_VALUE → Bool → JX_VALUE
  | .vBool _, b => .vBool b
  | v, _ => v

/-- `*(double *)p = x` -/
def writeNum : JX_VALUE → Int → JX_VALUE
  | .vNum _, x => .vNum x
  | v, _ => v

/-- `*(uint32_t *)p = 0` -/
def writeU32Zero : JX_VALUE → JX_VALUE
  | .vU32 _ => .vU32 0
  | v => v

/-- `strncpy((char *)p, value, JX_PROPERTY_MAX_SIZE)` -/
def writeStr : JX_VALUE → List Char → JX_VALUE
  | .vStr buf, s => .vStr (strncpy buf s JX_PROPERTY_MAX_SIZE)
  | v, _ => v

/-- Reading `(const char *)value_p` as a C string (encoder `JX_STRING` case). -/
def readCStr : JX_VALUE → List Char
  | .vStr buf => cstrList buf
  | _ => []

/-- Reading `*(bool *)value_p` (encoder `JX_BOOLEAN` case). -/
def readBool : JX_VALUE → Bool
  | .vBool b => b
  | _ => false

/-- Reading `*(double *)value_p` (encoder `JX_NUMBER` case). -/
def readNum : JX_VALUE → Int
  | .vNum x => x
  | _ => 0

/-! ### jx_types.h : `JX_ELEMENT`

`element` models the contiguous caller-owned child sequence the `element`
pointer addresses (the whole allocation, independent of what `value_len`
claims); `value_len` is the `uint8_t` capacity/count field. -/

inductive JX_ELEMENT where
  | mk (property : String) (type : JX_ELEMENT_TYPE) (value_len : Nat)
       (value : JX_VALUE) (status : JX_ELEMENT_STATUS) (element : List JX_ELEMENT)

def JX_ELEMENT.property : JX_ELEMENT → String
  | .mk p _ _ _ _ _ => p

def JX_ELEMENT.type : JX_ELEMENT → JX_ELEMENT_TYPE
  | .mk _ t _ _ _ _ => t

def JX_ELEMENT.value_len : JX_ELEMENT → Nat
  | .mk _ _ l _ _ _ => l

def JX_ELEMENT.value : JX_ELEMENT → JX_VALUE
  | .mk _ _ _ v _ _ => v

def JX_ELEMENT.status : JX_ELEMENT → JX_ELEMENT_STATUS
  | .mk _ _ _ _ st _ => st

def JX_ELEMENT.element : JX_ELEMENT → List JX_ELEMENT
  | .mk _ _ _ _ _ ch => ch

def setStatusE : JX_ELEMENT → JX_ELEMENT_STATUS → JX_ELEMENT
  | .mk p t l v _ ch, st => .mk p t l v st ch

def setValueE : JX_ELEMENT → JX_VALUE → JX_ELEMENT
  | .mk p t l _ st ch, v => .mk p t l v st ch

def setValueLenE : JX_ELEMENT → Nat → JX_ELEMENT
  | .mk p t _ v st ch, l => .mk p t l v st ch

def setChildrenE : JX_ELEMENT → List JX_ELEMENT → JX_ELEMENT
  | .mk p t l v st _, ch => .mk p t l v st ch

/-! ### jx_internal.h : inline helpers -/

/-- `jx_set_updated` -/
def jx_set_updated (e : JX_ELEMENT) : JX_ELEMENT :=
  setStatusE e .JX_ELEMENT_UPDATED

/-- `jx_clear_status` -/
def jx_clear_status (e : JX_ELEMENT) : JX_ELEMENT :=
  setStatusE e .JX_ELEMENT_NOT_UPDATED

/-- `jx_set_bool`: write the bool then mark updated. -/
def jx_set_bool (e : JX_ELEMENT) (b : Bool) : JX_ELEMENT :=
  jx_set_updated (setValueE e (writeBool e.value b))

/-- `jx_set_number` -/
def jx_set_number (e : JX_ELEMENT) (x : Int) : JX_ELEMENT :=
  jx_set_updated (setValueE e (writeNum e.value x))

/-- `jx_set_string`: `strncpy` into the caller buffer, then mark updated. -/
def jx_set_string (e : JX_ELEMENT) (s : List Char) : JX_ELEMENT :=
  jx_set_updated (setValueE e (writeStr e.value s))

/-- `jx_set_null_u32` -/
def jx_set_null_u32 (e : JX_ELEMENT) : JX_ELEMENT :=
  jx_set_updated (setValueE e (writeU32Zero e.value))

/-! ### cJSON value trees (external codec boundary) -/

inductive cJSON where
  | cNull
  | cBool (b : Bool)
  | cNumber (x : Int)
  | cString (s : List Char)
  | cArray (items : List cJSON)
  | cObject (fields : List (String × cJSON))

/-- `cJSON_GetObjectItemCaseSensitive`: exact-name lookup; NULL on non-objects. -/
def cJSON_GetObjectItemCaseSensitive (v : cJSON) (name : String) : Option cJSON :=
  match v with
  | .cObject fields => (fields.find? (fun p => p.1 == name)).map (fun p => p.2)
  | _ => none

/-- `cJSON_GetArraySize` walks the child list of any node (so it also counts
the members of an object, and yields 0 on scalar nodes). -/
def cJSON_GetArraySize : cJSON → Nat
  | .cArray items => items.length
  | .cObject fields => fields.length
  | _ => 0

/-- `cJSON_GetArrayItem` walks the child list positionally; NULL out of range. -/
def cJSON_GetArrayItem (v : cJSON) (j : Nat) : Option cJSON :=
  match v with
  | .cArray items => items.get? j
  | .cObject fields => (fields.get? j).map (fun p => p.2)
  | _ => none

/-- The attachment step of the encoder:
`object->type == cJSON_Array ? cJSON_AddItemToArray(object, node)
                             : cJSON_AddItemToObject(object, prop, node)`.
Both cJSON calls append to the container's child list. -/
def cJSON_AddItem (object : cJSON) (name : String) (node : cJSON) : cJSON :=
  match object with
  | .cArray items => .cArray (items ++ [node])
  | .cObject fields => .cObject (fields ++ [(name, node)])
  | other => other

/-! ### jx_static_allocator.c : the arena / bump allocator -/

structure jx_static_allocator_t where
  pool_size : Nat
  pool_offset : Nat
deriving DecidableEq

/-- `jx_static_allocator_init`: places the allocator header at the start of the
user buffer and uses the rest as the pool.  `ahdr` stands for the
platform-dependent `sizeof(jx_static_allocator_t)`. -/
def jx_static_allocator_init (buffer_valid : Bool) (ahdr : Nat) (size : Nat) :
    Option jx_static_allocator_t :=
  if !buffer_valid || size < ALIGN_4 ahdr then none
  else some ⟨size - ALIGN_4 ahdr, 0⟩

/-- `jx_static_malloc` (static mode): align the request, refuse a request the
bounds check rejects, otherwise hand out the current offset and advance it.
All arithmetic is size_t arithmetic (mod `SIZE_T_MOD`), exactly as in C.  The
returned `Nat` is the offset of the block inside the pool
(`pool_start + pool_offset` in C). -/
def jx_static_malloc (st : Option jx_static_allocator_t) (size : Nat) :
    Option Nat × Option jx_static_allocator_t :=
  match st with
  | none => (none, none)
  | some a =>
    if size = 0 then (none, some a)
    else
      let s := ALIGN_4 size
      if a.pool_size < (a.pool_offset + s) % SIZE_T_MOD then (none, some a)
      else (some a.pool_offset, some ⟨a.pool_size, (a.pool_offset + s) % SIZE_T_MOD⟩)

/-- `jx_static_free` is a no-op in static mode. -/
def jx_static_free (st : Option jx_static_allocator_t) :
    Option jx_static_allocator_t :=
  st

/-- `jx_static_reset`: reclaim the whole pool. -/
def jx_static_reset (st : Option jx_static_allocator_t) :
    Option jx_static_allocator_t :=
  match st with
  | none => none
  | some a => some ⟨a.pool_size, 0⟩

/-! ### jx_parser.c : session lifecycle (`jx_init` variants, `jx_parser_deinit`)

The session carries its state and, for the baremetal static backend, the
allocator context.  `alloc_ok` models whether the backend's allocation of the
parser control block succeeds; `psz` stands for `sizeof(JX_PARSER)`. -/

structure JX_PARSER where
  state : JX_STATE
  allocator : Option jx_static_allocator_t
deriving DecidableEq

/-- `jx_init` (ThreadX variant): rejected on a null pool or an existing
session; otherwise the control block is carved from the pool. -/
def jx_init_threadx (byte_pool : Bool) (session : Option JX_PARSER)
    (alloc_ok : Bool) : JX_STATUS × Option JX_PARSER :=
  if !byte_pool || session.isSome then (.JX_ERROR, session)
  else if !alloc_ok then (.JX_ERROR, session)
  else (.JX_SUCCESS, some ⟨.JX_INITIALIZED, none⟩)

/-- `jx_init` (FreeRTOS / heap-baremetal variant). -/
def jx_init_heap (session : Option JX_PARSER) (alloc_ok : Bool) :
    JX_STATUS × Option JX_PARSER :=
  if session.isSome then (.JX_ERROR, session)
  else if !alloc_ok then (.JX_ERROR, session)
  else (.JX_SUCCESS, some ⟨.JX_INITIALIZED, none⟩)

/-- `jx_init` (custom-allocator variant): `hooks_ok` models
`hooks && hooks->malloc_fn && hooks->free_fn`. -/
def jx_init_custom (hooks_ok : Bool) (session : Option JX_PARSER)
    (alloc_ok : Bool) : JX_STATUS × Option JX_PARSER :=
  if !hooks_ok || session.isSome then (.JX_ERROR, session)
  else if !alloc_ok then (.JX_ERROR, session)
  else (.JX_SUCCESS, some ⟨.JX_INITIALIZED, none⟩)

/-- `jx_init` (baremetal static variant): note that, unlike every other
variant, this one performs no check of the existing session — it
unconditionally rebinds `JSON_Parser` onto the supplied buffer.  On an
allocator-init failure it has already clobbered the session with the zeroed
control block. -/
def jx_init_baremetal (psz ahdr : Nat) (buffer_valid : Bool) (size : Nat)
    (session : Option JX_PARSER) : JX_STATUS × Option JX_PARSER :=
  if !buffer_valid || size < ALIGN_4 psz then (.JX_ERROR, session)
  else
    match jx_static_allocator_init buffer_valid ahdr (size - ALIGN_4 psz) with
    | none => (.JX_ERROR, some ⟨.JX_RESET, none⟩)
    | some alloc => (.JX_SUCCESS, some ⟨.JX_INITIALIZED, some alloc⟩)

/-- `jx_parser_deinit`: always leaves no session. -/
def jx_parser_deinit (_session : Option JX_PARSER) : Option JX_PARSER :=
  none

/-! ### jx_parser.c : struct → value-tree walk (`_jx_struct_to_object`)

The C walk appends one node per element to `object` (an object or array
container).  The local `cJSON *node` is declared once, outside the loop, so an
element falling into the switch's `default:` branch (type `JX_NULL` or any
unrecognized tag) leaves `node` holding the *previous* iteration's pointer,
which the attachment step then adds again.  The model reproduces this by
threading `node` through the iteration. -/

mutual

/-- `_jx_struct_to_object(object, element, size)`; `none` models `JX_ERROR`,
`some` carries the container with the produced nodes attached. -/
def jx_struct_to_object (fuel : Nat) (object : cJSON)
    (elems : List JX_ELEMENT) : Option cJSON :=
  match fuel with
  | 0 => none
  | fuel + 1 =>
    match elems with
    | [] => none
    | _ => encList fuel object none elems
termination_by (fuel, 0, 0)

/-- The element loop of `_jx_struct_to_object`; `node` is the loop-carried
`cJSON *node` local. -/
def encList (fuel : Nat) (object : cJSON) (node : Option cJSON)
    (elems : List JX_ELEMENT) : Option cJSON :=
  match elems with
  | [] => some object
  | e :: rest =>
    let step : Option (Option cJSON) :=
      match e.type with
      | .JX_STRING => some (some (.cString (readCStr e.value)))
      | .JX_BOOLEAN => some (some (.cBool (readBool e.value)))
      | .JX_NUMBER => some (some (.cNumber (readNum e.value)))
      | .JX_OBJECT =>
        match jx_struct_to_object fuel (.cObject []) (e.element.take e.value_len) with
        | none => none
        | some sub => some (some sub)
      | .JX_ARRAY =>
        match jx_struct_to_object fuel (.cArray []) (e.element.take e.value_len) with
        | none => none
        | some sub => some (some sub)
      | _ => some node
    match step with
    | none => none
    | some nodeNew =>
      let objectNew :=
        match nodeNew with
        | none => object
        | some nd => cJSON_AddItem object e.property nd
      encList fuel objectNew nodeNew rest
termination_by (fuel, 1, elems.length)

end

/-! ### jx_parser.c : value-tree → struct walk (`_jx_object_to_struct`)

The result carries the mutated element sequence, the `JX_STATUS` returned, and
the `oob` flag described at the top of the file.  The two
`JX_RETURN_IF_NULL` checks at the head of the C loop compare the address of an
array slot and a `char[50]` member against NULL and can never fire; they are
omitted. -/

structure DecResult where
  elems : List JX_ELEMENT
  status : JX_STATUS
  oob : Bool

structure ElemResult where
  elem : JX_ELEMENT
  status : JX_STATUS
  oob : Bool

/-- In-place update of one slot of a caller-owned sequence. -/
def modifyAt {α : Type} (f : α → α) : Nat → List α → List α
  | _, [] => []
  | 0, a :: as => f a :: as
  | n + 1, a :: as => a :: modifyAt f n as

mutual

/-- `_jx_object_to_struct(main_object, element, size, mode)`. -/
def jx_object_to_struct (fuel : Nat) (main_object : Option cJSON)
    (elems : List JX_ELEMENT) (mode : JX_PARSE_MODE) : DecResult :=
  match fuel with
  | 0 => ⟨elems, .JX_ERROR, false⟩
  | fuel + 1 =>
    match main_object with
    | none => ⟨elems, .JX_ERROR, false⟩
    | some v => decList fuel v elems mode
termination_by (fuel, 0, 0, 0)

/-- The element loop of `_jx_object_to_struct`: look the element up (by name,
or the container itself when the property is empty), handle a miss per mode,
otherwise dispatch on the declared type. -/
def decList (fuel : Nat) (v : cJSON) (elems : List JX_ELEMENT)
    (mode : JX_PARSE_MODE) : DecResult :=
  match elems with
  | [] => ⟨[], .JX_SUCCESS, false⟩
  | e :: rest =>
    let object : Option cJSON :=
      if e.property ≠ "" then cJSON_GetObjectItemCaseSensitive v e.property
      else some v
    match object with
    | none =>
      if mode = .JX_MODE_STRICT then ⟨e :: rest, .JX_ERROR, false⟩
      else
        let r := decList fuel v rest mode
        ⟨e :: r.elems, r.status, r.oob⟩
    | some obj =>
      let p := decElem fuel e obj mode
      if p.status = .JX_SUCCESS then
        let r := decList fuel v rest mode
        ⟨p.elem :: r.elems, r.status, p.oob || r.oob⟩
      else ⟨p.elem :: rest, .JX_ERROR, p.oob⟩
termination_by (fuel, 3, elems.length, 0)

/-- The per-element `switch (element[i].type)` of `_jx_object_to_struct`. -/
def decElem (fuel : Nat) (e : JX_ELEMENT) (obj : cJSON)
    (mode : JX_PARSE_MODE) : ElemResult :=
  match e.type with
  | .JX_NULL =>
    match obj with
    | .cNull => ⟨jx_set_null_u32 e, .JX_SUCCESS, false⟩
    | _ => ⟨jx_clear_status e, .JX_SUCCESS, false⟩
  | .JX_BOOLEAN =>
    match obj with
    | .cBool b => ⟨jx_set_bool e b, .JX_SUCCESS, false⟩
    | _ => ⟨jx_clear_status e, .JX_SUCCESS, false⟩
  | .JX_NUMBER =>
    match obj with
    | .cNumber x => ⟨jx_set_number e x, .JX_SUCCESS, false⟩
    | _ => ⟨jx_clear_status e, .JX_SUCCESS, false⟩
  | .JX_STRING =>
    match obj with
    | .cString s => ⟨jx_set_string e s, .JX_SUCCESS, false⟩
    | _ => ⟨jx_clear_status e, .JX_SUCCESS, false⟩
  | .JX_OBJECT =>
    match obj with
    | .cObject fs =>
      let slice := e.element.take e.value_len
      let oobHere := decide (e.element.length < e.value_len)
      let r := jx_object_to_struct fuel (some (.cObject fs)) slice mode
      let eNew := setChildrenE e (r.elems ++ e.element.drop e.value_len)
      if r.status = .JX_SUCCESS then
        ⟨jx_set_updated eNew, .JX_SUCCESS, oobHere || r.oob⟩
      else ⟨eNew, .JX_ERROR, oobHere || r.oob⟩
    | _ => ⟨jx_clear_status e, .JX_SUCCESS, false⟩
  | .JX_ARRAY =>
    let n := cJSON_GetArraySize obj % 256
    let e1 := setValueLenE e n
    let r := decArray fuel obj e.element 0 n mode
    let e2 := setChildrenE e1 r.elems
    if r.status = .JX_SUCCESS then ⟨jx_set_updated e2, .JX_SUCCESS, r.oob⟩
    else ⟨e2, .JX_ERROR, r.oob⟩
  | .JX_INVALID => ⟨e, .JX_SUCCESS, false⟩
termination_by (fuel, 2, 0, 0)

/-- The item loop of the `JX_ARRAY` case: for each index `j` below the stored
count, decode item `j` against the child slice starting at `element[j]` of
size `element[j].value_len` (1 when that is zero), then force the child's
status to updated.  An index `j` or a slice end past the caller-declared
sequence is an access the C code performs out of bounds; the model records it
in the `oob` flag (skipping the unrepresentable read) and continues. -/
def decArray (fuel : Nat) (obj : cJSON) (children : List JX_ELEMENT)
    (j n : Nat) (mode : JX_PARSE_MODE) : DecResult :=
  if j < n then
    match cJSON_GetArrayItem obj j with
    | none => decArray fuel obj children (j + 1) n mode
    | some item =>
      if children.isEmpty then decArray fuel obj children (j + 1) n mode
      else
        match children.get? j with
        | none =>
          let r := decArray fuel obj children (j + 1) n mode
          ⟨r.elems, r.status, true⟩
        | some cj =>
          let len := cj.value_len
          let sz := if len = 0 then 1 else len
          let slice := (children.drop j).take sz
          let sliceOob := decide (children.length < j + sz)
          let r := jx_object_to_struct fuel (some item) slice mode
          let childrenNew := children.take j ++ r.elems ++ children.drop (j + slice.length)
          if r.status = .JX_SUCCESS then
            let childrenUpd := modifyAt jx_set_updated j childrenNew
            let r2 := decArray fuel obj childrenUpd (j + 1) n mode
            ⟨r2.elems, r2.status, sliceOob || r.oob || r2.oob⟩
          else ⟨childrenNew, .JX_ERROR, sliceOob || r.oob⟩
  else ⟨children, .JX_SUCCESS, false⟩
termination_by (fuel, 1, n - j, 0)

end

/-! ### jx_parser.c : high-level interface

Neither high-level entry point consults the parser session: the C bodies never
read `JSON_Parser`.  Rendering to text and parsing from text are delegated to
the external codec, which the design document places out of scope and assumes
correct; rendered text is therefore identified with its value tree, and a
decode input of `none` models text the external parser rejects. -/

/-- `jx_struct_to_json(element, element_size, buffer, buffer_size, format)`:
create the root object, run the struct→object walk, render. -/
def jx_struct_to_json (fuel : Nat) (elems : List JX_ELEMENT) : Option cJSON :=
  jx_struct_to_object fuel (.cObject []) elems

/-- `jx_json_to_struct(buffer, element, element_size, mode)`: parse the text,
fail on rejected text, then run the object→struct walk. -/
def jx_json_to_struct (fuel : Nat) (parsed : Option cJSON)
    (elems : List JX_ELEMENT) (mode : JX_PARSE_MODE) : DecResult :=
  match parsed with
  | none => ⟨elems, .JX_ERROR, false⟩
  | some v => jx_object_to_struct fuel (some v) elems mode

/-! ### Specification companions for the round-trip analysis

`encNodeSpec` is the node the encoder produces from one element of a
well-behaved tree; `restoreSpec` is the element state the decoder leaves
behind after consuming that node; `summarize` is the property-name-correlated
field content of an element (status flags and buffer bytes beyond the
terminator excluded). -/

mutual

def encNodeSpec : JX_ELEMENT → cJSON
  | .mk _ t _ v _ ch =>
    match t with
    | .JX_STRING => .cString (readCStr v)
    | .JX_BOOLEAN => .cBool (readBool v)
    | .JX_NUMBER => .cNumber (readNum v)
    | .JX_OBJECT => .cObject (encPairsSpec ch)
    | .JX_ARRAY => .cArray (encItemsSpec ch)
    | _ => .cNull

def encPairsSpec : List JX_ELEMENT → List (String × cJSON)
  | [] => []
  | e :: r => (e.property, encNodeSpec e) :: encPairsSpec r

def encItemsSpec : List JX_ELEMENT → List cJSON
  | [] => []
  | e :: r => encNodeSpec e :: encItemsSpec r

end

mutual

def restoreSpec : JX_ELEMENT → JX_ELEMENT
  | .mk p t l v st ch =>
    match t with
    | .JX_BOOLEAN => jx_set_bool (.mk p t l v st ch) (readBool v)
    | .JX_NUMBER => jx_set_number (.mk p t l v st ch) (readNum v)
    | .JX_STRING => jx_set_string (.mk p t l v st ch) (readCStr v)
    | .JX_OBJECT => jx_set_updated (.mk p t l v st (restoreListSpec ch))
    | .JX_ARRAY => jx_set_updated (.mk p t l v st (restoreListSpec ch))
    | _ => .mk p t l v st ch

def restoreListSpec : List JX_ELEMENT → List JX_ELEMENT
  | [] => []
  | e :: r => restoreSpec e :: restoreListSpec r

end

/-- Field content carried by one leaf: the raw scalar cell, or the C-string
value for string leaves. -/
inductive FieldVal where
  | fRaw (v : JX_VALUE)
  | fStr (s : List Char)

/-- Property-name-correlated field content of an element tree. -/
inductive FieldTree where
  | leafF (p : String) (v : FieldVal)
  | nodeF (p : String) (ch : List FieldTree)

mutual

def summarize : JX_ELEMENT → FieldTree
  | .mk p t _ v _ ch =>
    match t with
    | .JX_STRING => .leafF p (.fStr (readCStr v))
    | .JX_OBJECT => .nodeF p (summarizeL ch)
    | .JX_ARRAY => .nodeF p (summarizeL ch)
    | _ => .leafF p (.fRaw v)

def summarizeL : List JX_ELEMENT → List FieldTree
  | [] => []
  | e :: r => summarize e :: summarizeL r

end

/-! ### Well-formedness of element trees

`safeE` / `safeL` capture the design document's well-formedness obligations:
scalar leaves bound to cells of the declared shape (string buffers
NUL-terminated inside the buffer), container capacities matching the declared
child sequences and fitting the `uint8_t` field, object levels using
non-empty pairwise-distinct names, array items positional (empty property)
scalars, and no `JX_NULL` / unrecognized tags. -/

def isScalarType : JX_ELEMENT_TYPE → Bool
  | .JX_BOOLEAN => true
  | .JX_NUMBER => true
  | .JX_STRING => true
  | _ => false

def scalarOkB : JX_ELEMENT_TYPE → JX_VALUE → Bool
  | .JX_BOOLEAN, .vBool _ => true
  | .JX_NUMBER, .vNum _ => true
  | .JX_STRING, .vStr buf => buf.contains nullChar
  | _, _ => false

def namesNonempty : List JX_ELEMENT → Bool
  | [] => true
  | e :: r => (e.property != "") && namesNonempty r

def namesDistinct : List JX_ELEMENT → Bool
  | [] => true
  | e :: r => (!(r.any (fun x => x.property == e.property))) && namesDistinct r

def arrayItemsOk : List JX_ELEMENT → Bool
  | [] => true
  | e :: r => (e.property == "") && isScalarType e.type && arrayItemsOk r

mutual

def safeE : JX_ELEMENT → Bool
  | .mk _ t l v _ ch =>
    match t with
    | .JX_BOOLEAN => scalarOkB t v && (l == 0)
    | .JX_NUMBER => scalarOkB t v && (l == 0)
    | .JX_STRING => scalarOkB t v && (l == 0)
    | .JX_OBJECT =>
      (l == ch.length) && decide (1 ≤ l) && decide (l ≤ 255) &&
        namesNonempty ch && namesDistinct ch && safeL ch
    | .JX_ARRAY =>
      (l == ch.length) && decide (1 ≤ l) && decide (l ≤ 255) &&
        arrayItemsOk ch && safeL ch
    | _ => false

def safeL : List JX_ELEMENT → Bool
  | [] => true
  | e :: r => safeE e && safeL r

end

/-- Well-formedness of a top-level element sequence (an object level). -/
def safeTop (elems : List JX_ELEMENT) : Bool :=
  (!elems.isEmpty) && namesNonempty elems && namesDistinct elems && safeL elems

/-! ### Fuel bound: nesting depth of the element tree -/

mutual

def needE : JX_ELEMENT → Nat
  | .mk _ t _ _ _ ch =>
    match t with
    | .JX_OBJECT => 1 + needL ch
    | .JX_ARRAY => 1 + needL ch
    | _ => 0

def needL : List JX_ELEMENT → Nat
  | [] => 0
  | e :: r => max (needE e) (needL r)

end

/-! ### Concrete element trees used by the theorems below -/

/-- A `JX_PROPERTY_NUMBER(p, x)`-style element. -/
def numElem (p : String) (x : Int) : JX_ELEMENT :=
  .mk p .JX_NUMBER 0 (.vNum x) .JX_ELEMENT_NOT_UPDATED []

/-- A `JX_NULL`-typed element bound to a `uint32_t` cell. -/
def nullElem (p : String) : JX_ELEMENT :=
  .mk p .JX_NULL 0 (.vU32 0) .JX_ELEMENT_NOT_UPDATED []

/-- A `JX_PROPERTY_STRING(p, buf)`-style element. -/
def strElem (p : String) (buf : List Char) : JX_ELEMENT :=
  .mk p .JX_STRING 0 (.vStr buf) .JX_ELEMENT_NOT_UPDATED []

/-- A `JX_PROPERTY_ARRAY(p, ch)`-style element (capacity = declared sequence). -/
def arrElem (p : String) (ch : List JX_ELEMENT) : JX_ELEMENT :=
  .mk p .JX_ARRAY ch.length .vNone .JX_ELEMENT_NOT_UPDATED ch

/-- A `JX_OBJECT_VAL(ch)`-style positional object item. -/
def objItem (ch : List JX_ELEMENT) : JX_ELEMENT :=
  .mk "" .JX_OBJECT ch.length .vNone .JX_ELEMENT_NOT_UPDATED ch

/-- Walk an element forest along a path of child indices. -/
def elemAtPath (es : List JX_ELEMENT) : List Nat → Option JX_ELEMENT
  | [] => none
  | [i] => es.get? i
  | i :: rest =>
    match es.get? i with
    | none => none
    | some e => elemAtPath e.element rest

/-- Array of declared capacity 1 whose JSON input holds 2 items. -/
def exC1 : List JX_ELEMENT := [arrElem "arr" [numElem "" 0]]

def exC1_json : cJSON := .cObject [("arr", .cArray [.cNumber 5, .cNumber 7])]

/-- Array of declared capacity 2 whose JSON input holds 1 item. -/
def exC1b : List JX_ELEMENT := [arrElem "arr" [numElem "" 0, numElem "" 0]]

def exC1b_json : cJSON := .cObject [("arr", .cArray [.cNumber 5])]

/-- A leading `JX_NULL` array item followed by two number items: the encoder
drops the null item, shortening the rendered array, and the positional decode
then shifts every later value one slot to the left. -/
def exC2a : List JX_ELEMENT :=
  [arrElem "arr" [nullElem "", numElem "" 1, numElem "" 2]]

/-- An array of two 2-field positional objects (the `JX_PROPERTY_OBJECT_ARRAY_2`
pattern from jx_user.h): the item loop recurses with slice size
`element[j].value_len`, so at `j = 0` the slice covers both object items and
the second object's fields are matched against the first item's node. -/
def exC2b : List JX_ELEMENT :=
  [arrElem "arr" [objItem [numElem "city" 1, numElem "zip" 2],
                  objItem [numElem "city" 3, numElem "extra" 4]]]

/-- The spec §8.6 scenario: `{name: string, position: number[2]}`. -/
def exC2w : List JX_ELEMENT :=
  [strElem "name" ('A' :: 'd' :: 'a' :: 'm' :: nullChar :: []),
   arrElem "position" [numElem "" 12, numElem "" 34]]

/-- Two declared numbers; the input text carries only the first. -/
def exC3 : List JX_ELEMENT := [numElem "a" 0, numElem "b" 0]

def exC3_json : cJSON := .cObject [("a", .cNumber 5)]

/-- A boolean positional array item. -/
def exC4item : JX_ELEMENT := .mk "" .JX_BOOLEAN 0 (.vBool false) .JX_ELEMENT_NOT_UPDATED []

/-- A number element followed by a `JX_NULL` element: the encoder's stale
`node` local re-attaches the number's node under the null element's name. -/
def exC6 : List JX_ELEMENT := [numElem "a" 1, nullElem "b"]

/-- An element still marked updated from an earlier decode. -/
def exC8 : JX_ELEMENT := .mk "b" .JX_NUMBER 0 (.vNum 9) .JX_ELEMENT_UPDATED []

/-- Whether a value-tree node has the JSON type an element's tag declares
(the `cJSON_IsNull` / `cJSON_IsBool` / ... checks of the decoder switch). -/
def typeMatchesNode : JX_ELEMENT_TYPE → cJSON → Bool
  | .JX_NULL, .cNull => true
  | .JX_BOOLEAN, .cBool _ => true
  | .JX_NUMBER, .cNumber _ => true
  | .JX_STRING, .cString _ => true
  | .JX_OBJECT, .cObject _ => true
  | .JX_ARRAY, .cArray _ => true
  | _, _ => false

/-! ## Theorems

General helper lemmas come first, then one theorem (plus witness or
counterexample) per specification claim. -/

theorem setChildrenE_self (e : JX_ELEMENT) : setChildrenE e e.element = e := by
  cases e <;> rfl

theorem setStatusE_setStatusE (e : JX_ELEMENT) (s1 s2 : JX_ELEMENT_STATUS) :
    setStatusE (setStatusE e s1) s2 = setStatusE e s2 := by
  cases e <;> rfl

theorem strncpy_length (d s : List Char) (n : Nat) :
    (strncpy d s n).length = d.length := by
  induction d generalizing s n with
  | nil => cases n <;> cases s <;> simp [strncpy]
  | cons c d ih =>
    cases n with
    | zero => simp [strncpy]
    | succ k => cases s <;> simp [strncpy, ih]

theorem strncpy_take (d s : List Char) (n : Nat) (hd : n ≤ d.length)
    (hs : n ≤ s.length) : (strncpy d s n).take n = s.take n := by
  induction n generalizing d s with
  | zero => simp
  | succ k ih =>
    cases d with
    | nil => simp at hd
    | cons c d =>
      cases s with
      | nil => simp at hs
      | cons a s =>
        simp only [strncpy, List.take_succ_cons, List.cons.injEq, true_and]
        exact ih d s (by simpa using hd) (by simpa using hs)

theorem strncpy_drop (d s : List Char) (n : Nat) :
    (strncpy d s n).drop n = d.drop n := by
  induction n generalizing d s with
  | zero => simp [strncpy]
  | succ k ih =>
    cases d with
    | nil => cases s <;> simp [strncpy]
    | cons c d => cases s <;> simp [strncpy, ih]

theorem cstrList_nil : cstrList [] = [] := rfl

theorem cstrList_cons (a : Char) (t : List Char) :
    cstrList (a :: t) = if a != nullChar then a :: cstrList t else [] := by
  simp only [cstrList, List.takeWhile]
  cases h : a != nullChar <;> simp

theorem strncpy_cstr_of_lt (s : List Char) (d : List Char) (n : Nat)
    (hlt : s.length < n) (hd : n ≤ d.length)
    (hnz : ∀ c ∈ s, c ≠ nullChar) :
    cstrList (strncpy d s n) = s := by
  induction s generalizing d n with
  | nil =>
    cases n with
    | zero => omega
    | succ k =>
      cases d with
      | nil => simp at hd
      | cons c d =>
        simp only [strncpy, cstrList_cons]
        simp
  | cons a s ih =>
    cases n with
    | zero => omega
    | succ k =>
      cases d with
      | nil => simp at hd
      | cons c d =>
        have ha : a ≠ nullChar := hnz a (by simp)
        simp only [strncpy, cstrList_cons]
        rw [if_pos (by simpa using ha)]
        rw [ih d k (by simpa using hlt) (by simpa using hd)
          (fun c hc => hnz c (by simp [hc]))]

/-- C9: on the arena backend every request is 4-byte aligned, the bounds check
refuses a request that would overrun the pool, a granted block stays inside
the pool (and the offset invariant is preserved), and `release` reclaims
nothing — all of which holds provided the request does not wrap the size_t
round-up (`size + 3 < 2^32`) and the offset-plus-size addition does not wrap
(`pool_offset + ALIGN_4 size < 2^32`); the wrap-around cases are the subject
of the counterexample. -/
theorem jx_c9_bump_allocator (a : jx_static_allocator_t) (size : Nat)
    (hinv : a.pool_offset ≤ a.pool_size) (hpos : 0 < size)
    (hnw : size + 3 < SIZE_T_MOD)
    (hnw2 : a.pool_offset + ALIGN_4 size < SIZE_T_MOD) :
    (size ≤ ALIGN_4 size ∧ ALIGN_4 size % 4 = 0) ∧
    (a.pool_size < a.pool_offset + ALIGN_4 size →
      jx_static_malloc (some a) size = (none, some a)) ∧
    (a.pool_offset + ALIGN_4 size ≤ a.pool_size →
      jx_static_malloc (some a) size =
        (some a.pool_offset, some ⟨a.pool_size, a.pool_offset + ALIGN_4 size⟩)) ∧
    (∀ st, jx_static_free st = st) := by
  have halign : ALIGN_4 size = (size + 3) - (size + 3) % 4 := by
    unfold ALIGN_4
    rw [Nat.mod_eq_of_lt hnw]
  refine ⟨⟨by rw [halign]; omega, by rw [halign]; omega⟩, ?_, ?_, fun st => rfl⟩
  · intro hgt
    simp only [jx_static_malloc]
    rw [if_neg (by omega)]
    rw [Nat.mod_eq_of_lt hnw2, if_pos hgt]
  · intro hle
    simp only [jx_static_malloc]
    rw [if_neg (by omega)]
    rw [Nat.mod_eq_of_lt hnw2, if_neg (by omega)]

theorem jx_c9_bump_allocator_witness :
    ((0 : Nat) ≤ 64 ∧ 0 < 6 ∧ 6 + 3 < SIZE_T_MOD ∧ 0 + ALIGN_4 6 < SIZE_T_MOD) ∧
    ((6 ≤ ALIGN_4 6 ∧ ALIGN_4 6 % 4 = 0) ∧
     ((64 : Nat) < 0 + ALIGN_4 6 →
       jx_static_malloc (some ⟨64, 0⟩) 6 = (none, some ⟨64, 0⟩)) ∧
     (0 + ALIGN_4 6 ≤ 64 →
       jx_static_malloc (some ⟨64, 0⟩) 6 =
         (some 0, some ⟨64, 0 + ALIGN_4 6⟩)) ∧
     (∀ st, jx_static_free st = st)) :=
  ⟨⟨by decide, by decide, by decide, by decide⟩,
   jx_c9_bump_allocator ⟨64, 0⟩ 6 (by decide) (by decide) (by decide) (by decide)⟩

/-- C9 counterexample: a request of `2^32 - 3` bytes wraps the size_t
round-up (`ALIGN_4` yields 0), slips past the bounds check of a 64-byte pool,
and is handed a block instead of failing. -/
theorem jx_c9_wraparound_cex :
    jx_static_malloc (some ⟨64, 0⟩) (SIZE_T_MOD - 3) = (some 0, some ⟨64, 0⟩) ∧
    64 < SIZE_T_MOD - 3 := by
  constructor
  · decide
  · decide

/-- C10: `jx_set_string` copies with `strncpy(dest, src, JX_PROPERTY_MAX_SIZE)`
into the caller buffer and marks the element updated; when the source C
string has at least `JX_PROPERTY_MAX_SIZE` (50) characters, exactly the first
50 bytes of the buffer are written with no NUL among them (nothing beyond
position 50 is touched, so no terminator is appended); for any shorter source
the buffer afterwards holds `src` as a NUL-terminated C string. -/
theorem jx_c10_strncpy_truncation (p : String) (l : Nat) (st : JX_ELEMENT_STATUS)
    (ch : List JX_ELEMENT) (buf s : List Char)
    (hb : JX_PROPERTY_MAX_SIZE ≤ buf.length)
    (hnz : ∀ c ∈ s, c ≠ nullChar) :
    (jx_set_string (.mk p .JX_STRING l (.vStr buf) st ch) s =
      .mk p .JX_STRING l (.vStr (strncpy buf s JX_PROPERTY_MAX_SIZE))
        .JX_ELEMENT_UPDATED ch) ∧
    (JX_PROPERTY_MAX_SIZE ≤ s.length →
      (strncpy buf s JX_PROPERTY_MAX_SIZE).take JX_PROPERTY_MAX_SIZE =
        s.take JX_PROPERTY_MAX_SIZE ∧
      (∀ c ∈ (strncpy buf s JX_PROPERTY_MAX_SIZE).take JX_PROPERTY_MAX_SIZE,
        c ≠ nullChar) ∧
      (strncpy buf s JX_PROPERTY_MAX_SIZE).drop JX_PROPERTY_MAX_SIZE =
        buf.drop JX_PROPERTY_MAX_SIZE) ∧
    (s.length < JX_PROPERTY_MAX_SIZE →
      cstrList (strncpy buf s JX_PROPERTY_MAX_SIZE) = s) := by
  refine ⟨rfl, ?_, ?_⟩
  · intro hs
    refine ⟨strncpy_take buf s _ hb hs, ?_, strncpy_drop buf s _⟩
    intro c hc
    rw [strncpy_take buf s _ hb hs] at hc
    exact hnz c (List.take_subset _ _ hc)
  · intro hs
    exact strncpy_cstr_of_lt s buf JX_PROPERTY_MAX_SIZE hs hb hnz

theorem jx_c10_strncpy_truncation_witness :
    (JX_PROPERTY_MAX_SIZE ≤ (List.replicate 60 'x').length ∧
     (∀ c ∈ List.replicate 55 'y', c ≠ nullChar)) ∧
    ((jx_set_string (.mk "f" .JX_STRING 0 (.vStr (List.replicate 60 'x'))
        .JX_ELEMENT_NOT_UPDATED []) (List.replicate 55 'y') =
      .mk "f" .JX_STRING 0
        (.vStr (strncpy (List.replicate 60 'x') (List.replicate 55 'y')
          JX_PROPERTY_MAX_SIZE)) .JX_ELEMENT_UPDATED []) ∧
     (JX_PROPERTY_MAX_SIZE ≤ (List.replicate 55 'y').length →
       (strncpy (List.replicate 60 'x') (List.replicate 55 'y')
          JX_PROPERTY_MAX_SIZE).take JX_PROPERTY_MAX_SIZE =
         (List.replicate 55 'y').take JX_PROPERTY_MAX_SIZE ∧
       (∀ c ∈ (strncpy (List.replicate 60 'x') (List.replicate 55 'y')
          JX_PROPERTY_MAX_SIZE).take JX_PROPERTY_MAX_SIZE, c ≠ nullChar) ∧
       (strncpy (List.replicate 60 'x') (List.replicate 55 'y')
          JX_PROPERTY_MAX_SIZE).drop JX_PROPERTY_MAX_SIZE =
         (List.replicate 60 'x').drop JX_PROPERTY_MAX_SIZE) ∧
     ((List.replicate 55 'y').length < JX_PROPERTY_MAX_SIZE →
       cstrList (strncpy (List.replicate 60 'x') (List.replicate 55 'y')
         JX_PROPERTY_MAX_SIZE) = List.replicate 55 'y')) :=
  ⟨⟨by decide, by decide⟩,
   jx_c10_strncpy_truncation "f" 0 .JX_ELEMENT_NOT_UPDATED []
     (List.replicate 60 'x') (List.replicate 55 'y') (by decide) (by decide)⟩

/-- C7 (amended): for the ThreadX, FreeRTOS/heap and custom-hooks `jx_init`
variants, calling init while a session exists is rejected with `JX_ERROR`
and the existing session is left unchanged, whatever the other arguments.
The baremetal static variant performs no such check (see the
counterexample). -/
theorem jx_c7_reinit_rejected (p : JX_PARSER) (bp alloc hoo : Bool) :
    jx_init_threadx bp (some p) alloc = (.JX_ERROR, some p) ∧
    jx_init_heap (some p) alloc = (.JX_ERROR, some p) ∧
    jx_init_custom hoo (some p) alloc = (.JX_ERROR, some p) := by
  refine ⟨?_, ?_, ?_⟩ <;>
    simp [jx_init_threadx, jx_init_heap, jx_init_custom]

theorem jx_c7_reinit_rejected_witness :
    jx_init_threadx true (some ⟨.JX_INITIALIZED, none⟩) true =
      (.JX_ERROR, some ⟨.JX_INITIALIZED, none⟩) ∧
    jx_init_heap (some ⟨.JX_INITIALIZED, none⟩) true =
      (.JX_ERROR, some ⟨.JX_INITIALIZED, none⟩) ∧
    jx_init_custom true (some ⟨.JX_INITIALIZED, none⟩) true =
      (.JX_ERROR, some ⟨.JX_INITIALIZED, none⟩) :=
  jx_c7_reinit_rejected ⟨.JX_INITIALIZED, none⟩ true true true

/-- C7 counterexample: the baremetal static `jx_init` accepts a second init
while a session is already `JX_INITIALIZED` (representative platform sizes:
`sizeof(JX_PARSER)` = `sizeof(jx_static_allocator_t)` = 8, buffer of 64
bytes): it returns `JX_SUCCESS` and rebinds the session onto the new buffer
instead of rejecting the call. -/
theorem jx_c7_baremetal_reinit_cex :
    jx_init_baremetal 8 8 true 64 (some ⟨.JX_INITIALIZED, none⟩) =
      (.JX_SUCCESS, some ⟨.JX_INITIALIZED, some ⟨48, 0⟩⟩) := by
  decide

/-- C1: decoding a JSON array overwrites the element's `value_len` with the
item count actually found — but when the input holds more items than the
declared capacity the item loop runs to the actual count and accesses child
slots beyond the caller-declared sequence (the `oob` flag): with capacity 1
and input `{"arr":[5,7]}` the walk succeeds, stores `value_len = 2`, and
touches the non-existent child slot 1.  With capacity 2 and one input item
the count is stored, the parent is marked updated, and no out-of-bounds
access happens. -/
theorem jx_c1_array_overrun :
    ((jx_json_to_struct 4 (some exC1_json) exC1 .JX_MODE_STRICT).oob = true ∧
     (elemAtPath (jx_json_to_struct 4 (some exC1_json) exC1 .JX_MODE_STRICT).elems
        [0]).map JX_ELEMENT.value_len = some 2 ∧
     (jx_json_to_struct 4 (some exC1_json) exC1 .JX_MODE_STRICT).status =
       .JX_SUCCESS) ∧
    ((jx_json_to_struct 4 (some exC1b_json) exC1b .JX_MODE_STRICT).oob = false ∧
     (elemAtPath (jx_json_to_struct 4 (some exC1b_json) exC1b .JX_MODE_STRICT).elems
        [0]).map JX_ELEMENT.value_len = some 1 ∧
     (elemAtPath (jx_json_to_struct 4 (some exC1b_json) exC1b .JX_MODE_STRICT).elems
        [0]).map JX_ELEMENT.status = some .JX_ELEMENT_UPDATED) := by
  refine ⟨⟨?_, ?_, ?_⟩, ?_, ?_, ?_⟩ <;>
    simp [exC1, exC1_json, exC1b, exC1b_json, jx_json_to_struct, jx_object_to_struct, decList, decElem, decArray, jx_struct_to_json, jx_struct_to_object, encList, cJSON_GetObjectItemCaseSensitive, cJSON_GetArraySize, cJSON_GetArrayItem, cJSON_AddItem, modifyAt, jx_set_updated, jx_clear_status, jx_set_bool, jx_set_number, jx_set_string, jx_set_null_u32, setStatusE, setValueE, setValueLenE, setChildrenE, writeBool, writeNum, writeU32Zero, writeStr, readBool, readNum, readCStr, cstrList, strncpy, JX_ELEMENT.property, JX_ELEMENT.type, JX_ELEMENT.value_len, JX_ELEMENT.value, JX_ELEMENT.status, JX_ELEMENT.element, elemAtPath, numElem, nullElem, strElem, arrElem, objItem]

/-- C5: neither high-level entry point checks the session state — their C
bodies never read `JSON_Parser` (and so the model takes no session input at
all): called before any `jx_init` (or after `jx_parser_deinit`) they run to
completion instead of failing immediately, the encoder building and rendering
the value tree through the codec's allocation hooks and the decoder writing
caller memory. -/
theorem jx_c5_no_init_guard :
    jx_struct_to_json 3 [numElem "a" 7] = some (.cObject [("a", .cNumber 7)]) ∧
    (jx_json_to_struct 3 (some (.cObject [("a", .cNumber 5)])) [numElem "a" 0]
       .JX_MODE_STRICT).status = .JX_SUCCESS ∧
    (elemAtPath (jx_json_to_struct 3 (some (.cObject [("a", .cNumber 5)]))
       [numElem "a" 0] .JX_MODE_STRICT).elems [0]).map JX_ELEMENT.value =
      some (.vNum 5) := by
  refine ⟨?_, ?_, ?_⟩ <;>
    simp [jx_json_to_struct, jx_object_to_struct, decList, decElem, decArray, jx_struct_to_json, jx_struct_to_object, encList, cJSON_GetObjectItemCaseSensitive, cJSON_GetArraySize, cJSON_GetArrayItem, cJSON_AddItem, modifyAt, jx_set_updated, jx_clear_status, jx_set_bool, jx_set_number, jx_set_string, jx_set_null_u32, setStatusE, setValueE, setValueLenE, setChildrenE, writeBool, writeNum, writeU32Zero, writeStr, readBool, readNum, readCStr, cstrList, strncpy, JX_ELEMENT.property, JX_ELEMENT.type, JX_ELEMENT.value_len, JX_ELEMENT.value, JX_ELEMENT.status, JX_ELEMENT.element, elemAtPath, numElem, nullElem, strElem, arrElem, objItem]

/-- C6: the encoder's `cJSON *node` local is declared outside the element
loop, so a `JX_NULL` element reaching the switch's `default:` leaves `node`
holding the previous element's node, which is then attached again under the
null element's property: encoding `[a:Number=1, b:Null]` yields
`{"a":1,"b":1}`, not `{"a":1}`.  Only a null element with no preceding
node-producing element contributes nothing. -/
theorem jx_c6_stale_node_reattached :
    jx_struct_to_json 3 exC6 =
      some (.cObject [("a", .cNumber 1), ("b", .cNumber 1)]) ∧
    jx_struct_to_json 3 [nullElem "b"] = some (.cObject []) := by
  constructor <;>
    simp [exC6, jx_json_to_struct, jx_object_to_struct, decList, decElem, decArray, jx_struct_to_json, jx_struct_to_object, encList, cJSON_GetObjectItemCaseSensitive, cJSON_GetArraySize, cJSON_GetArrayItem, cJSON_AddItem, modifyAt, jx_set_updated, jx_clear_status, jx_set_bool, jx_set_number, jx_set_string, jx_set_null_u32, setStatusE, setValueE, setValueLenE, setChildrenE, writeBool, writeNum, writeU32Zero, writeStr, readBool, readNum, readCStr, cstrList, strncpy, JX_ELEMENT.property, JX_ELEMENT.type, JX_ELEMENT.value_len, JX_ELEMENT.value, JX_ELEMENT.status, JX_ELEMENT.element, elemAtPath, numElem, nullElem, strElem, arrElem, objItem]

/-- C3 (amended): when a non-empty property has no matching node, a Strict
decode returns `JX_ERROR` at once, leaving the missing element and every
element after it untouched; a Relaxed decode leaves that element entirely
unchanged (status included) and continues with the remaining elements,
returning their result.  Elements before the missing one have already been
processed (see the counterexample). -/
theorem jx_c3_missing_key (fuel : Nat) (v : cJSON) (e : JX_ELEMENT)
    (rest : List JX_ELEMENT) (mode : JX_PARSE_MODE)
    (hp : e.property ≠ "")
    (hmiss : cJSON_GetObjectItemCaseSensitive v e.property = none) :
    (mode = .JX_MODE_STRICT →
      jx_object_to_struct (fuel + 1) (some v) (e :: rest) mode =
        ⟨e :: rest, .JX_ERROR, false⟩) ∧
    (mode = .JX_MODE_RELAXED →
      jx_object_to_struct (fuel + 1) (some v) (e :: rest) mode =
        ⟨e :: (decList fuel v rest mode).elems, (decList fuel v rest mode).status,
          (decList fuel v rest mode).oob⟩) := by
  constructor
  · intro hm
    subst hm
    simp only [jx_object_to_struct]
    rw [decList]
    simp [hp, hmiss]
  · intro hm
    subst hm
    simp only [jx_object_to_struct]
    rw [decList]
    simp [hp, hmiss]

theorem jx_c3_missing_key_witness :
    ((numElem "b" 0).property ≠ "" ∧
     cJSON_GetObjectItemCaseSensitive (.cObject []) (numElem "b" 0).property =
       none) ∧
    (JX_PARSE_MODE.JX_MODE_STRICT = .JX_MODE_STRICT →
      jx_object_to_struct 4 (some (.cObject [])) [numElem "b" 0]
          .JX_MODE_STRICT =
        ⟨[numElem "b" 0], .JX_ERROR, false⟩) ∧
    (JX_PARSE_MODE.JX_MODE_STRICT = .JX_MODE_RELAXED →
      jx_object_to_struct 4 (some (.cObject [])) [numElem "b" 0]
          .JX_MODE_STRICT =
        ⟨[numElem "b" 0] ++ (decList 3 (.cObject []) [] .JX_MODE_STRICT).elems,
          (decList 3 (.cObject []) [] .JX_MODE_STRICT).status,
          (decList 3 (.cObject []) [] .JX_MODE_STRICT).oob⟩) :=
  ⟨⟨by simp [numElem, JX_ELEMENT.property], by
      simp [numElem, JX_ELEMENT.property, cJSON_GetObjectItemCaseSensitive]⟩,
   jx_c3_missing_key 3 (.cObject []) (numElem "b" 0) [] .JX_MODE_STRICT
     (by simp [numElem, JX_ELEMENT.property])
     (by simp [numElem, JX_ELEMENT.property, cJSON_GetObjectItemCaseSensitive])⟩

/-- C3 counterexample: with elements `[a, b]` and input `{"a":5}`, the Strict
decode fails on the missing `"b"` — but the sibling `a`, processed first, has
already been written (value 5, status updated, original value 0), so the
claim that the sibling elements are untouched on the Strict error path fails
for siblings preceding the missing key. -/
theorem jx_c3_strict_sibling_cex :
    (jx_json_to_struct 4 (some exC3_json) exC3 .JX_MODE_STRICT).status =
      .JX_ERROR ∧
    (elemAtPath (jx_json_to_struct 4 (some exC3_json) exC3 .JX_MODE_STRICT).elems
       [0]).map JX_ELEMENT.value = some (.vNum 5) ∧
    (elemAtPath (jx_json_to_struct 4 (some exC3_json) exC3 .JX_MODE_STRICT).elems
       [0]).map JX_ELEMENT.status = some .JX_ELEMENT_UPDATED ∧
    (elemAtPath exC3 [0]).map JX_ELEMENT.value = some (.vNum 0) ∧
    (elemAtPath (jx_json_to_struct 4 (some exC3_json) exC3 .JX_MODE_STRICT).elems
       [1]).map JX_ELEMENT.value = some (.vNum 0) := by
  refine ⟨?_, ?_, ?_, ?_, ?_⟩ <;>
    simp [exC3, exC3_json, jx_json_to_struct, jx_object_to_struct, decList, decElem, decArray, jx_struct_to_json, jx_struct_to_object, encList, cJSON_GetObjectItemCaseSensitive, cJSON_GetArraySize, cJSON_GetArrayItem, cJSON_AddItem, modifyAt, jx_set_updated, jx_clear_status, jx_set_bool, jx_set_number, jx_set_string, jx_set_null_u32, setStatusE, setValueE, setValueLenE, setChildrenE, writeBool, writeNum, writeU32Zero, writeStr, readBool, readNum, readCStr, cstrList, strncpy, JX_ELEMENT.property, JX_ELEMENT.type, JX_ELEMENT.value_len, JX_ELEMENT.value, JX_ELEMENT.status, JX_ELEMENT.element, elemAtPath, numElem, nullElem, strElem, arrElem, objItem]

/-- C8 (amended): `jx_json_to_struct` performs no status reset before
matching; the decoder writes an element's status only when a node is found
for it, so an element whose lookup misses in Relaxed mode keeps its previous
state unchanged — an element marked updated after a decode may carry the mark
from an earlier call. -/
theorem jx_c8_status_not_reset (fuel : Nat) (v : cJSON) (e : JX_ELEMENT)
    (rest : List JX_ELEMENT)
    (hp : e.property ≠ "")
    (hmiss : cJSON_GetObjectItemCaseSensitive v e.property = none) :
    (jx_object_to_struct (fuel + 1) (some v) (e :: rest)
        .JX_MODE_RELAXED).elems.head? = some e := by
  simp only [jx_object_to_struct]
  rw [decList]
  simp [hp, hmiss]

theorem jx_c8_status_not_reset_witness :
    (exC8.property ≠ "" ∧
     cJSON_GetObjectItemCaseSensitive (.cObject []) exC8.property = none) ∧
    (jx_object_to_struct 4 (some (.cObject [])) [exC8]
        .JX_MODE_RELAXED).elems.head? = some exC8 :=
  ⟨⟨by simp [exC8, JX_ELEMENT.property], by
      simp [exC8, JX_ELEMENT.property, cJSON_GetObjectItemCaseSensitive]⟩,
   jx_c8_status_not_reset 3 (.cObject []) exC8 []
     (by simp [exC8, JX_ELEMENT.property])
     (by simp [exC8, JX_ELEMENT.property, cJSON_GetObjectItemCaseSensitive])⟩

/-- C8 counterexample: an element still marked updated by an earlier call,
decoded in Relaxed mode against `{}` (its key absent), comes out of the new
decode still marked updated although this decode never wrote it — so statuses
are not reset at the start of the walk. -/
theorem jx_c8_stale_updated_cex :
    (jx_json_to_struct 4 (some (.cObject [])) [exC8] .JX_MODE_RELAXED).status =
      .JX_SUCCESS ∧
    (elemAtPath (jx_json_to_struct 4 (some (.cObject [])) [exC8]
       .JX_MODE_RELAXED).elems [0]).map JX_ELEMENT.status =
      some .JX_ELEMENT_UPDATED ∧
    exC8.status = .JX_ELEMENT_UPDATED := by
  refine ⟨?_, ?_, ?_⟩ <;>
    simp [exC8, jx_json_to_struct, jx_object_to_struct, decList, decElem, decArray, jx_struct_to_json, jx_struct_to_object, encList, cJSON_GetObjectItemCaseSensitive, cJSON_GetArraySize, cJSON_GetArrayItem, cJSON_AddItem, modifyAt, jx_set_updated, jx_clear_status, jx_set_bool, jx_set_number, jx_set_string, jx_set_null_u32, setStatusE, setValueE, setValueLenE, setChildrenE, writeBool, writeNum, writeU32Zero, writeStr, readBool, readNum, readCStr, cstrList, strncpy, JX_ELEMENT.property, JX_ELEMENT.type, JX_ELEMENT.value_len, JX_ELEMENT.value, JX_ELEMENT.status, JX_ELEMENT.element, elemAtPath, numElem, nullElem, strElem, arrElem, objItem]

/-- C4 (amended): a present node of the wrong JSON type is tolerated — for an
element declared Null, Boolean, Number, String or Object the decoder clears
the status, writes nothing, and reports success so processing continues, in
either mode.  But an Array-declared element is never type-checked: the
mismatched node's child count (0 for scalars) is stored into `value_len` and
the element is marked updated; and an element reached as an array item has
its status forced to updated by the enclosing item loop even when its own
dispatch found a mismatch (its cell still unwritten). -/
theorem jx_c4_type_mismatch :
    (∀ (fuel : Nat) (e : JX_ELEMENT) (obj : cJSON) (mode : JX_PARSE_MODE),
      e.type ≠ .JX_ARRAY → e.type ≠ .JX_INVALID →
      typeMatchesNode e.type obj = false →
      decElem fuel e obj mode = ⟨jx_clear_status e, .JX_SUCCESS, false⟩) ∧
    (∀ (fuel : Nat) (e : JX_ELEMENT) (obj : cJSON) (mode : JX_PARSE_MODE),
      e.type = .JX_ARRAY → cJSON_GetArraySize obj = 0 →
      decElem fuel e obj mode =
        ⟨jx_set_updated (setValueLenE e 0), .JX_SUCCESS, false⟩) ∧
    (∀ (G : Nat) (item : cJSON) (child : JX_ELEMENT) (mode : JX_PARSE_MODE)
       (p : String) (l : Nat) (v : JX_VALUE) (st : JX_ELEMENT_STATUS),
      child.property = "" → child.value_len = 0 →
      decElem G child item mode = ⟨jx_clear_status child, .JX_SUCCESS, false⟩ →
      decElem (G + 1) (.mk p .JX_ARRAY l v st [child]) (.cArray [item]) mode =
        ⟨jx_set_updated (.mk p .JX_ARRAY 1 v st
          [jx_set_updated (jx_clear_status child)]), .JX_SUCCESS, false⟩) := by
  refine ⟨?_, ?_, ?_⟩
  · intro fuel e obj mode h1 h2 h3
    cases e with
    | mk p t l v st ch =>
      cases t <;> cases obj <;>
        simp_all [decElem, typeMatchesNode, JX_ELEMENT.type, jx_clear_status,
          setStatusE]
  · intro fuel e obj mode h1 h2
    cases e with
    | mk p t l v st ch =>
      simp only [JX_ELEMENT.type] at h1
      subst h1
      cases obj <;>
        simp_all [decElem, decArray, cJSON_GetArraySize, jx_set_updated,
          setStatusE, setValueLenE, setChildrenE, JX_ELEMENT.type,
          JX_ELEMENT.element]
  · intro G item child mode p l v st hprop hlen hc
    cases child with
    | mk cp ct cl cv cst cch =>
      simp only [JX_ELEMENT.property] at hprop
      simp only [JX_ELEMENT.value_len] at hlen
      subst hprop
      subst hlen
      simp [decElem, decArray, decList, jx_object_to_struct, hc,
        cJSON_GetArraySize, cJSON_GetArrayItem, JX_ELEMENT.type,
        JX_ELEMENT.element, JX_ELEMENT.property, JX_ELEMENT.value_len,
        jx_set_updated, setStatusE, setValueLenE, setChildrenE, modifyAt,
        jx_clear_status]

theorem jx_c4_type_mismatch_witness :
    ((numElem "x" 0).type ≠ .JX_ARRAY ∧ (numElem "x" 0).type ≠ .JX_INVALID ∧
     typeMatchesNode (numElem "x" 0).type (.cString ('h' :: [])) = false ∧
     decElem 1 (numElem "x" 0) (.cString ('h' :: [])) .JX_MODE_STRICT =
       ⟨jx_clear_status (numElem "x" 0), .JX_SUCCESS, false⟩) ∧
    ((arrElem "a" [numElem "" 0]).type = .JX_ARRAY ∧
     cJSON_GetArraySize (.cNumber 5) = 0 ∧
     decElem 1 (arrElem "a" [numElem "" 0]) (.cNumber 5) .JX_MODE_RELAXED =
       ⟨jx_set_updated (setValueLenE (arrElem "a" [numElem "" 0]) 0),
         .JX_SUCCESS, false⟩) ∧
    (exC4item.property = "" ∧ exC4item.value_len = 0 ∧
     decElem 2 (.mk "a" .JX_ARRAY 1 .vNone .JX_ELEMENT_NOT_UPDATED [exC4item])
         (.cArray [.cString ('h' :: 'i' :: [])]) .JX_MODE_RELAXED =
       ⟨jx_set_updated (.mk "a" .JX_ARRAY 1 .vNone .JX_ELEMENT_NOT_UPDATED
         [jx_set_updated (jx_clear_status exC4item)]), .JX_SUCCESS, false⟩) :=
  ⟨⟨by decide, by decide, by decide,
    jx_c4_type_mismatch.1 1 (numElem "x" 0) (.cString ('h' :: []))
      .JX_MODE_STRICT (by decide) (by decide) (by decide)⟩,
   ⟨by decide, by decide,
    jx_c4_type_mismatch.2.1 1 (arrElem "a" [numElem "" 0]) (.cNumber 5)
      .JX_MODE_RELAXED (by decide) (by decide)⟩,
   ⟨by decide, by decide,
    jx_c4_type_mismatch.2.2 1 (.cString ('h' :: 'i' :: [])) exC4item
      .JX_MODE_RELAXED "a" 1 .vNone .JX_ELEMENT_NOT_UPDATED (by decide)
      (by decide)
      (by simp [decElem, exC4item, JX_ELEMENT.type, jx_clear_status,
        setStatusE])⟩⟩

/-- C4 counterexample: (a) an Array-declared element whose matched node is a
number ends the decode marked updated with `value_len` overwritten to 0 —
not not-updated as the claim states; (b) a boolean array item matched against
a string item is cleared by its own dispatch but then force-marked updated by
the enclosing item loop (its cell unwritten), so array items do not end
not-updated either. -/
theorem jx_c4_mismatch_cex :
    ((elemAtPath (jx_json_to_struct 4
        (some (.cObject [("a", .cNumber 5)]))
        [arrElem "a" [numElem "" 0]] .JX_MODE_RELAXED).elems [0]).map
       JX_ELEMENT.status = some .JX_ELEMENT_UPDATED ∧
     (elemAtPath (jx_json_to_struct 4
        (some (.cObject [("a", .cNumber 5)]))
        [arrElem "a" [numElem "" 0]] .JX_MODE_RELAXED).elems [0]).map
       JX_ELEMENT.value_len = some 0) ∧
    ((elemAtPath (jx_json_to_struct 4
        (some (.cObject [("a", .cArray [.cString ('h' :: 'i' :: [])])]))
        [arrElem "a" [exC4item]] .JX_MODE_RELAXED).elems [0, 0]).map
       JX_ELEMENT.status = some .JX_ELEMENT_UPDATED ∧
     (elemAtPath (jx_json_to_struct 4
        (some (.cObject [("a", .cArray [.cString ('h' :: 'i' :: [])])]))
        [arrElem "a" [exC4item]] .JX_MODE_RELAXED).elems [0, 0]).map
       JX_ELEMENT.value = some (.vBool false)) := by
  refine ⟨⟨?_, ?_⟩, ?_, ?_⟩ <;>
    simp [exC4item, jx_json_to_struct, jx_object_to_struct, decList, decElem, decArray, jx_struct_to_json, jx_struct_to_object, encList, cJSON_GetObjectItemCaseSensitive, cJSON_GetArraySize, cJSON_GetArrayItem, cJSON_AddItem, modifyAt, jx_set_updated, jx_clear_status, jx_set_bool, jx_set_number, jx_set_string, jx_set_null_u32, setStatusE, setValueE, setValueLenE, setChildrenE, writeBool, writeNum, writeU32Zero, writeStr, readBool, readNum, readCStr, cstrList, strncpy, JX_ELEMENT.property, JX_ELEMENT.type, JX_ELEMENT.value_len, JX_ELEMENT.value, JX_ELEMENT.status, JX_ELEMENT.element, elemAtPath, numElem, nullElem, strElem, arrElem, objItem]

/-- C2 counterexample: encode-then-decode over the same tree does not restore
every field.  (a) With a leading `JX_NULL` array item the encoder drops the
item, the rendered array is `[1,2]` for declared items `[null,1,2]`, and the
Relaxed decode then writes 2 over the field that held 1 — the decode
succeeds and leaves a property-correlated field unequal to its original.
(b) With an array of two 2-field positional objects (the
`JX_PROPERTY_OBJECT_ARRAY_2` pattern), the item loop's slice of size
`element[0].value_len = 2` matches the second object's fields against the
first item: `city` is overwritten with 1 (original 3) and the Strict decode
then fails on the absent `extra`, leaving the mis-written value behind.
(c) The same tree decoded Relaxed makes the item loop read past the declared
two-slot child sequence (the `oob` flag): the general claim ranges over
executions the C code performs out of bounds. -/
theorem jx_c2_roundtrip_cex :
    (jx_struct_to_json 6 exC2a =
       some (.cObject [("arr", .cArray [.cNumber 1, .cNumber 2])]) ∧
     (jx_json_to_struct 6 (jx_struct_to_json 6 exC2a) exC2a
        .JX_MODE_RELAXED).status = .JX_SUCCESS ∧
     (elemAtPath (jx_json_to_struct 6 (jx_struct_to_json 6 exC2a) exC2a
        .JX_MODE_RELAXED).elems [0, 1]).map JX_ELEMENT.value =
       some (.vNum 2) ∧
     (elemAtPath exC2a [0, 1]).map JX_ELEMENT.value = some (.vNum 1)) ∧
    ((jx_json_to_struct 6 (jx_struct_to_json 6 exC2b) exC2b
        .JX_MODE_STRICT).status = .JX_ERROR ∧
     (elemAtPath (jx_json_to_struct 6 (jx_struct_to_json 6 exC2b) exC2b
        .JX_MODE_STRICT).elems [0, 1, 0]).map JX_ELEMENT.value =
       some (.vNum 1) ∧
     (elemAtPath exC2b [0, 1, 0]).map JX_ELEMENT.value = some (.vNum 3)) ∧
    (jx_json_to_struct 6 (jx_struct_to_json 6 exC2b) exC2b
       .JX_MODE_RELAXED).oob = true := by
  refine ⟨⟨?_, ?_, ?_, ?_⟩, ⟨?_, ?_, ?_⟩, ?_⟩ <;>
    simp [exC2a, exC2b, jx_json_to_struct, jx_object_to_struct, decList, decElem, decArray, jx_struct_to_json, jx_struct_to_object, encList, cJSON_GetObjectItemCaseSensitive, cJSON_GetArraySize, cJSON_GetArrayItem, cJSON_AddItem, modifyAt, jx_set_updated, jx_clear_status, jx_set_bool, jx_set_number, jx_set_string, jx_set_null_u32, setStatusE, setValueE, setValueLenE, setChildrenE, writeBool, writeNum, writeU32Zero, writeStr, readBool, readNum, readCStr, cstrList, strncpy, JX_ELEMENT.property, JX_ELEMENT.type, JX_ELEMENT.value_len, JX_ELEMENT.value, JX_ELEMENT.status, JX_ELEMENT.element, elemAtPath, numElem, nullElem, strElem, arrElem, objItem]

/-! ### Helper lemmas for the round-trip theorem -/

theorem encItemsSpec_length (l : List JX_ELEMENT) :
    (encItemsSpec l).length = l.length := by
  induction l with
  | nil => rfl
  | cons e r ih => simp [encItemsSpec, ih]

theorem encItemsSpec_get? (l : List JX_ELEMENT) (j : Nat) :
    (encItemsSpec l).get? j = (l.get? j).map encNodeSpec := by
  induction l generalizing j with
  | nil => simp [encItemsSpec]
  | cons e r ih =>
    cases j with
    | zero => simp [encItemsSpec]
    | succ k => simpa [encItemsSpec] using ih k

theorem restoreListSpec_length (l : List JX_ELEMENT) :
    (restoreListSpec l).length = l.length := by
  induction l with
  | nil => rfl
  | cons e r ih => simp [restoreListSpec, ih]

theorem restoreListSpec_append (a b : List JX_ELEMENT) :
    restoreListSpec (a ++ b) = restoreListSpec a ++ restoreListSpec b := by
  induction a with
  | nil => simp [restoreListSpec]
  | cons e r ih => simp [restoreListSpec, ih]

theorem safeL_mem (l : List JX_ELEMENT) (hs : safeL l = true)
    (e : JX_ELEMENT) (he : e ∈ l) : safeE e = true := by
  induction l with
  | nil => cases he
  | cons x r ih =>
    rw [safeL, Bool.and_eq_true] at hs
    rcases List.mem_cons.mp he with h | h
    · exact h ▸ hs.1
    · exact ih hs.2 h

theorem setValueLenE_self (e : JX_ELEMENT) : setValueLenE e e.value_len = e := by
  cases e <;> rfl

theorem scalar_restore_status (e : JX_ELEMENT) (hsc : isScalarType e.type = true) :
    jx_set_updated (restoreSpec e) = restoreSpec e := by
  cases e with
  | mk p t l v st ch =>
    cases t <;> simp_all [isScalarType, JX_ELEMENT.type, restoreSpec,
      jx_set_bool, jx_set_number, jx_set_string, jx_set_updated, setStatusE,
      setValueE]

theorem strncpy_zero (d s : List Char) : strncpy d s 0 = d := by
  cases d <;> cases s <;> rfl

theorem cstr_strncpy_self (buf : List Char) (n : Nat) :
    cstrList (strncpy buf (cstrList buf) n) = cstrList buf := by
  induction buf generalizing n with
  | nil => cases n <;> rfl
  | cons c d ih =>
    cases n with
    | zero => rw [strncpy_zero]
    | succ m =>
      by_cases hc : c = nullChar
      · subst hc
        have h1 : cstrList (nullChar :: d) = [] := by
          rw [cstrList_cons]
          simp
        rw [h1]
        have h2 : strncpy (nullChar :: d) [] (m + 1) =
            nullChar :: strncpy d [] m := rfl
        rw [h2, cstrList_cons]
        simp
      · have hb : (c != nullChar) = true := by simpa using hc
        have h1 : cstrList (c :: d) = c :: cstrList d := by
          rw [cstrList_cons, if_pos hb]
        rw [h1]
        have h2 : strncpy (c :: d) (c :: cstrList d) (m + 1) =
            c :: strncpy d (cstrList d) m := rfl
        rw [h2, cstrList_cons, if_pos hb, ih m]

theorem safeE_object (p : String) (l : Nat) (v : JX_VALUE)
    (st : JX_ELEMENT_STATUS) (ch : List JX_ELEMENT)
    (hs : safeE (.mk p .JX_OBJECT l v st ch) = true) :
    l = ch.length ∧ 1 ≤ l ∧ l ≤ 255 ∧ namesNonempty ch = true ∧
      namesDistinct ch = true ∧ safeL ch = true := by
  simpa [safeE, Bool.and_eq_true, and_assoc] using hs

theorem safeE_array (p : String) (l : Nat) (v : JX_VALUE)
    (st : JX_ELEMENT_STATUS) (ch : List JX_ELEMENT)
    (hs : safeE (.mk p .JX_ARRAY l v st ch) = true) :
    l = ch.length ∧ 1 ≤ l ∧ l ≤ 255 ∧ arrayItemsOk ch = true ∧
      safeL ch = true := by
  simpa [safeE, Bool.and_eq_true, and_assoc] using hs

theorem safeE_scalar_len (e : JX_ELEMENT) (hsc : isScalarType e.type = true)
    (hs : safeE e = true) : e.value_len = 0 := by
  cases e with
  | mk p t l v st ch =>
    cases t <;>
      simp_all [isScalarType, JX_ELEMENT.type, JX_ELEMENT.value_len, safeE,
        Bool.and_eq_true]

mutual

theorem summarize_restore : ∀ (e : JX_ELEMENT), safeE e = true →
    summarize (restoreSpec e) = summarize e
  | .mk p t l v st ch, hs => by
    cases t with
    | JX_BOOLEAN =>
      cases v <;> simp_all [safeE, scalarOkB, restoreSpec, jx_set_bool,
        jx_set_updated, setStatusE, setValueE, writeBool, readBool, summarize,
        JX_ELEMENT.value]
    | JX_NUMBER =>
      cases v <;> simp_all [safeE, scalarOkB, restoreSpec, jx_set_number,
        jx_set_updated, setStatusE, setValueE, writeNum, readNum, summarize,
        JX_ELEMENT.value]
    | JX_STRING =>
      cases v <;> simp_all [safeE, scalarOkB, restoreSpec, jx_set_string,
        jx_set_updated, setStatusE, setValueE, writeStr, readCStr, summarize,
        JX_ELEMENT.value, cstr_strncpy_self]
    | JX_OBJECT =>
      have hch : safeL ch = true := (safeE_object p l v st ch hs).2.2.2.2.2
      simp [restoreSpec, jx_set_updated, setStatusE, summarize,
        summarizeL_restore ch hch]
    | JX_ARRAY =>
      have hch : safeL ch = true := (safeE_array p l v st ch hs).2.2.2.2
      simp [restoreSpec, jx_set_updated, setStatusE, summarize,
        summarizeL_restore ch hch]
    | JX_NULL => simp [safeE] at hs
    | JX_INVALID => simp [safeE] at hs

theorem summarizeL_restore : ∀ (l : List JX_ELEMENT), safeL l = true →
    summarizeL (restoreListSpec l) = summarizeL l
  | [], _ => rfl
  | e :: r, hs => by
    rw [safeL, Bool.and_eq_true] at hs
    rw [restoreListSpec]
    rw [summarizeL, summarizeL]
    rw [summarize_restore e hs.1, summarizeL_restore r hs.2]

end

theorem arrayItemsOk_mem (l : List JX_ELEMENT) (h : arrayItemsOk l = true)
    (e : JX_ELEMENT) (he : e ∈ l) :
    e.property = "" ∧ isScalarType e.type = true := by
  induction l with
  | nil => cases he
  | cons x r ih =>
    rw [arrayItemsOk, Bool.and_eq_true, Bool.and_eq_true] at h
    rcases List.mem_cons.mp he with hh | hh
    · subst hh
      exact ⟨by simpa using h.1.1, h.1.2⟩
    · exact ih h.2 hh

theorem modifyAt_len_append {α : Type} (f : α → α) (A : List α) (b : α)
    (B : List α) : modifyAt f A.length (A ++ b :: B) = A ++ f b :: B := by
  induction A with
  | nil => rfl
  | cons a A ih => simp [modifyAt, ih]

theorem drop_cons_get? {α : Type} (l : List α) (j : Nat) (a : α)
    (h : l.get? j = some a) : l.drop j = a :: l.drop (j + 1) := by
  induction l generalizing j with
  | nil => simp at h
  | cons x r ih =>
    cases j with
    | zero => simp_all
    | succ k => simpa using ih k (by simpa using h)

theorem isEmpty_append_cons {α : Type} (A : List α) (b : α) (B : List α) :
    (A ++ b :: B).isEmpty = false := by
  cases A <;> rfl

theorem namesDistinct_head (x : JX_ELEMENT) (r : List JX_ELEMENT)
    (hd : namesDistinct (x :: r) = true) (e : JX_ELEMENT) (he : e ∈ r) :
    (x.property == e.property) = false := by
  rw [namesDistinct, Bool.and_eq_true] at hd
  have hany : r.any (fun y => y.property == x.property) = false := by
    simpa using hd.1
  have hne : e.property ≠ x.property := by
    intro hcon
    have : r.any (fun y => y.property == x.property) = true :=
      List.any_eq_true.mpr ⟨e, he, by simpa using hcon⟩
    rw [this] at hany
    cases hany
  exact beq_eq_false_iff_ne.mpr (fun hh => hne hh.symm)

theorem encPairs_lookup (elems : List JX_ELEMENT)
    (hd : namesDistinct elems = true) :
    ∀ e ∈ elems,
      cJSON_GetObjectItemCaseSensitive (.cObject (encPairsSpec elems))
        e.property = some (encNodeSpec e) := by
  induction elems with
  | nil => intro e he; cases he
  | cons x r ih =>
    intro e he
    rcases List.mem_cons.mp he with h | h
    · subst h
      simp [cJSON_GetObjectItemCaseSensitive, encPairsSpec, List.find?]
    · have hne : (x.property == e.property) = false := namesDistinct_head x r hd e h
      have hd' : namesDistinct r = true := by
        rw [namesDistinct, Bool.and_eq_true] at hd
        exact hd.2
      have := ih hd' e h
      simpa [cJSON_GetObjectItemCaseSensitive, encPairsSpec, List.find?, hne]
        using this

theorem decElem_scalar (G : Nat) (e : JX_ELEMENT) (mode : JX_PARSE_MODE)
    (hsc : isScalarType e.type = true) :
    decElem G e (encNodeSpec e) mode = ⟨restoreSpec e, .JX_SUCCESS, false⟩ := by
  cases e with
  | mk p t l v st ch =>
    cases t <;> simp_all [isScalarType, JX_ELEMENT.type, decElem, encNodeSpec,
      restoreSpec]

theorem enc_safe : ∀ (F : Nat) (elems : List JX_ELEMENT), safeL elems = true →
    needL elems ≤ F →
    (∀ (fs : List (String × cJSON)) (nd : Option cJSON),
      encList F (.cObject fs) nd elems =
        some (.cObject (fs ++ encPairsSpec elems))) ∧
    (∀ (its : List cJSON) (nd : Option cJSON),
      encList F (.cArray its) nd elems =
        some (.cArray (its ++ encItemsSpec elems))) := by
  intro F
  induction F using Nat.strong_induction_on with
  | _ F ihF =>
    intro elems
    induction elems with
    | nil =>
      intro _ _
      constructor <;> intro c1 nd <;> rw [encList] <;>
        simp [encPairsSpec, encItemsSpec]
    | cons e rest ihrest =>
      intro hs hn
      rw [safeL, Bool.and_eq_true] at hs
      rw [needL] at hn
      have hne : needE e ≤ F := le_trans (le_max_left _ _) hn
      have hnr : needL rest ≤ F := le_trans (le_max_right _ _) hn
      obtain ⟨ihrO, ihrA⟩ := ihrest hs.2 hnr
      cases e with
      | mk p t l v st ch =>
        cases t with
        | JX_NULL => exact absurd hs.1 (by simp [safeE])
        | JX_INVALID => exact absurd hs.1 (by simp [safeE])
        | JX_BOOLEAN =>
          constructor <;> intro c1 nd <;> rw [encList] <;>
            simp [JX_ELEMENT.type, JX_ELEMENT.value, JX_ELEMENT.property,
              cJSON_AddItem, ihrO, ihrA, encPairsSpec, encItemsSpec,
              encNodeSpec]
        | JX_NUMBER =>
          constructor <;> intro c1 nd <;> rw [encList] <;>
            simp [JX_ELEMENT.type, JX_ELEMENT.value, JX_ELEMENT.property,
              cJSON_AddItem, ihrO, ihrA, encPairsSpec, encItemsSpec,
              encNodeSpec]
        | JX_STRING =>
          constructor <;> intro c1 nd <;> rw [encList] <;>
            simp [JX_ELEMENT.type, JX_ELEMENT.value, JX_ELEMENT.property,
              cJSON_AddItem, ihrO, ihrA, encPairsSpec, encItemsSpec,
              encNodeSpec]
        | JX_OBJECT =>
          obtain ⟨hl, hl1, _, _, _, hsch⟩ := safeE_object p l v st ch hs.1
          have hF1 : 1 ≤ F := by
            simp only [needE] at hne
            omega
          obtain ⟨F', rfl⟩ : ∃ F', F = F' + 1 := ⟨F - 1, by omega⟩
          have hchF : needL ch ≤ F' := by
            simp only [needE] at hne
            omega
          have hsub := (ihF F' (by omega) ch hsch hchF).1
          have htake : ch.take l = ch := by
            rw [hl]
            exact List.take_length ch
          have hobj : jx_struct_to_object (F' + 1) (.cObject []) ch =
              some (.cObject (encPairsSpec ch)) := by
            cases hc : ch with
            | nil =>
              subst hc
              simp at hl
              omega
            | cons c cr =>
              subst hc
              simp only [jx_struct_to_object]
              rw [hsub]
              simp
          constructor <;> intro c1 nd <;> rw [encList] <;>
            simp [JX_ELEMENT.type, JX_ELEMENT.element, JX_ELEMENT.value_len,
              JX_ELEMENT.property, htake, hobj, cJSON_AddItem, ihrO, ihrA,
              encPairsSpec, encItemsSpec, encNodeSpec]
        | JX_ARRAY =>
          obtain ⟨hl, hl1, _, _, hsch⟩ := safeE_array p l v st ch hs.1
          have hF1 : 1 ≤ F := by
            simp only [needE] at hne
            omega
          obtain ⟨F', rfl⟩ : ∃ F', F = F' + 1 := ⟨F - 1, by omega⟩
          have hchF : needL ch ≤ F' := by
            simp only [needE] at hne
            omega
          have hsub := (ihF F' (by omega) ch hsch hchF).2
          have htake : ch.take l = ch := by
            rw [hl]
            exact List.take_length ch
          have harr : jx_struct_to_object (F' + 1) (.cArray []) ch =
              some (.cArray (encItemsSpec ch)) := by
            cases hc : ch with
            | nil =>
              subst hc
              simp at hl
              omega
            | cons c cr =>
              subst hc
              simp only [jx_struct_to_object]
              rw [hsub]
              simp
          constructor <;> intro c1 nd <;> rw [encList] <;>
            simp [JX_ELEMENT.type, JX_ELEMENT.element, JX_ELEMENT.value_len,
              JX_ELEMENT.property, htake, harr, cJSON_AddItem, ihrO, ihrA,
              encPairsSpec, encItemsSpec, encNodeSpec]

theorem take_append_of_len {α : Type} (A B : List α) (j : Nat)
    (h : A.length = j) : (A ++ B).take j = A := by
  subst h
  exact List.take_left A B

theorem drop_append_of_len {α : Type} (A B : List α) (j : Nat)
    (h : A.length = j) : (A ++ B).drop j = B := by
  subst h
  exact List.drop_left A B

theorem drop_succ_append_cons {α : Type} (A : List α) (b : α) (B : List α)
    (j : Nat) (h : A.length = j) : (A ++ b :: B).drop (j + 1) = B := by
  subst h
  induction A with
  | nil => rfl
  | cons a A ih => simpa using ih

theorem get?_append_of_len {α : Type} (A : List α) (b : α) (B : List α)
    (j : Nat) (h : A.length = j) : (A ++ b :: B).get? j = some b := by
  subst h
  induction A with
  | nil => rfl
  | cons a A ih => simpa using ih

theorem modifyAt_of_len {α : Type} (f : α → α) (A : List α) (b : α)
    (B : List α) (j : Nat) (h : A.length = j) :
    modifyAt f j (A ++ b :: B) = A ++ f b :: B := by
  subst h
  exact modifyAt_len_append f A b B

theorem decArray_restore (G : Nat) (orig : List JX_ELEMENT) (j : Nat)
    (mode : JX_PARSE_MODE) (hG : 1 ≤ G)
    (hitems : arrayItemsOk orig = true) (hsafe : safeL orig = true) :
    decArray G (.cArray (encItemsSpec orig))
      (restoreListSpec (orig.take j) ++ orig.drop j) j orig.length mode =
      ⟨restoreListSpec orig, .JX_SUCCESS, false⟩ := by
  by_cases hj : j < orig.length
  case neg =>
    have h1 : orig.take j = orig := List.take_of_length_le (by omega)
    have h2 : orig.drop j = [] := List.drop_eq_nil_of_le (by omega)
    rw [h1, h2, List.append_nil, decArray, if_neg hj]
  case pos =>
    obtain ⟨cj, hcj⟩ : ∃ cj, orig.get? j = some cj := by
      cases hq : orig.get? j with
      | none =>
        rw [List.get?_eq_none] at hq
        omega
      | some a => exact ⟨a, rfl⟩
    have hmem : cj ∈ orig := List.get?_mem hcj
    obtain ⟨hprop, hsc⟩ := arrayItemsOk_mem orig hitems cj hmem
    have hsafecj : safeE cj = true := safeL_mem orig hsafe cj hmem
    have hlen0 : cj.value_len = 0 := safeE_scalar_len cj hsc hsafecj
    have hAlen : (restoreListSpec (orig.take j)).length = j := by
      rw [restoreListSpec_length, List.length_take]
      omega
    have hdrop : orig.drop j = cj :: orig.drop (j + 1) := drop_cons_get? orig j cj hcj
    have hitem : cJSON_GetArrayItem (.cArray (encItemsSpec orig)) j =
        some (encNodeSpec cj) := by
      show (encItemsSpec orig).get? j = some (encNodeSpec cj)
      rw [encItemsSpec_get?, hcj]
      rfl
    have hgetj : (restoreListSpec (orig.take j) ++ orig.drop j).get? j =
        some cj := by
      rw [hdrop]
      exact get?_append_of_len _ _ _ _ hAlen
    have hgetj2 : (restoreListSpec (orig.take j) ++ orig.drop j)[j]? =
        some cj := by
      rw [← List.get?_eq_getElem?]
      exact hgetj
    have hne : (restoreListSpec (orig.take j) ++ orig.drop j).isEmpty = false := by
      rw [hdrop]
      exact isEmpty_append_cons _ _ _
    have hclen : (restoreListSpec (orig.take j) ++ orig.drop j).length =
        orig.length := by
      rw [List.length_append, hAlen, List.length_drop]
      omega
    have hdropj : (restoreListSpec (orig.take j) ++ orig.drop j).drop j =
        orig.drop j := drop_append_of_len _ _ _ hAlen
    have htakej : (restoreListSpec (orig.take j) ++ orig.drop j).take j =
        restoreListSpec (orig.take j) := take_append_of_len _ _ _ hAlen
    have hdropj1 : (restoreListSpec (orig.take j) ++ orig.drop j).drop (j + 1) =
        orig.drop (j + 1) := by
      rw [hdrop]
      exact drop_succ_append_cons _ _ _ _ hAlen
    have hslice : (orig.drop j).take 1 = [cj] := by
      rw [hdrop]
      rfl
    have hnl : ¬ (orig.length < j + 1) := by omega
    obtain ⟨G', rfl⟩ : ∃ G', G = G' + 1 := ⟨G - 1, by omega⟩
    have hdecslice : jx_object_to_struct (G' + 1) (some (encNodeSpec cj)) [cj]
        mode = ⟨[restoreSpec cj], .JX_SUCCESS, false⟩ := by
      simp only [jx_object_to_struct]
      rw [decList]
      simp [hprop, decElem_scalar G' cj mode hsc, decList]
    have hmod : modifyAt jx_set_updated j (restoreListSpec (orig.take j) ++
        restoreSpec cj :: orig.drop (j + 1)) =
        restoreListSpec (orig.take j) ++
          jx_set_updated (restoreSpec cj) :: orig.drop (j + 1) :=
      modifyAt_of_len _ _ _ _ _ hAlen
    have hstep : restoreListSpec (orig.take j) ++ restoreSpec cj ::
        orig.drop (j + 1) =
        restoreListSpec (orig.take (j + 1)) ++ orig.drop (j + 1) := by
      have hgj : orig[j]? = some cj := by
        rw [← List.get?_eq_getElem?]
        exact hcj
      have ht : orig.take (j + 1) = orig.take j ++ [cj] := by
        rw [List.take_succ, hgj]
        rfl
      rw [ht, restoreListSpec_append]
      simp [restoreListSpec]
    have hrec := decArray_restore (G' + 1) orig (j + 1) mode hG hitems hsafe
    rw [hstep] at hmod
    rw [decArray, if_pos hj, hitem]
    simp [hne, hgetj, hgetj2, hlen0, hclen, hdropj, htakej, hdropj1, hslice,
      hdecslice, hnl, hmod, hstep, scalar_restore_status cj hsc, hrec]
  termination_by orig.length - j

theorem dec_restore : ∀ (G : Nat) (v : cJSON) (elems : List JX_ELEMENT)
    (mode : JX_PARSE_MODE), safeL elems = true → namesNonempty elems = true →
    needL elems ≤ G →
    (∀ e ∈ elems, cJSON_GetObjectItemCaseSensitive v e.property =
      some (encNodeSpec e)) →
    decList G v elems mode = ⟨restoreListSpec elems, .JX_SUCCESS, false⟩ := by
  intro G
  induction G using Nat.strong_induction_on with
  | _ G ihG =>
    intro v elems mode
    induction elems with
    | nil =>
      intro _ _ _ _
      rw [decList]
      rfl
    | cons e rest ihrest =>
      intro hs hnn hneed hlook
      rw [safeL, Bool.and_eq_true] at hs
      rw [namesNonempty, Bool.and_eq_true] at hnn
      rw [needL] at hneed
      have hneedE : needE e ≤ G := le_trans (le_max_left _ _) hneed
      have hneedR : needL rest ≤ G := le_trans (le_max_right _ _) hneed
      have hlooke := hlook e (List.mem_cons_self e rest)
      have hlookr : ∀ x ∈ rest, cJSON_GetObjectItemCaseSensitive v x.property =
          some (encNodeSpec x) := fun x hx => hlook x (List.mem_cons_of_mem e hx)
      have hprop : e.property ≠ "" := by
        intro hh
        rw [hh] at hnn
        simp at hnn
      have hdecE : decElem G e (encNodeSpec e) mode =
          ⟨restoreSpec e, .JX_SUCCESS, false⟩ := by
        cases e with
        | mk p t l vv st ch =>
          cases t with
          | JX_BOOLEAN =>
            exact decElem_scalar G _ mode (by simp [isScalarType, JX_ELEMENT.type])
          | JX_NUMBER =>
            exact decElem_scalar G _ mode (by simp [isScalarType, JX_ELEMENT.type])
          | JX_STRING =>
            exact decElem_scalar G _ mode (by simp [isScalarType, JX_ELEMENT.type])
          | JX_NULL => exact absurd hs.1 (by simp [safeE])
          | JX_INVALID => exact absurd hs.1 (by simp [safeE])
          | JX_OBJECT =>
            obtain ⟨hl, hl1, hl255, hchnn, hchnd, hchsafe⟩ :=
              safeE_object p l vv st ch hs.1
            have hG1 : 1 ≤ G := by
              simp only [needE] at hneedE
              omega
            obtain ⟨G₀, rfl⟩ : ∃ G₀, G = G₀ + 1 := ⟨G - 1, by omega⟩
            have hchneed : needL ch ≤ G₀ := by
              simp only [needE] at hneedE
              omega
            have hlookch := encPairs_lookup ch hchnd
            have hrec := ihG G₀ (by omega) (.cObject (encPairsSpec ch)) ch mode
              hchsafe hchnn hchneed hlookch
            have htake : ch.take l = ch := by
              rw [hl]
              exact List.take_length ch
            have hdropl : ch.drop l = [] := by
              rw [hl]
              exact List.drop_length ch
            have hnlt : ¬ (ch.length < l) := by omega
            have hjs : jx_object_to_struct (G₀ + 1)
                (some (.cObject (encPairsSpec ch))) ch mode =
                ⟨restoreListSpec ch, .JX_SUCCESS, false⟩ := by
              cases hc : ch with
              | nil =>
                subst hc
                simp at hl
                omega
              | cons c cr =>
                subst hc
                simp only [jx_object_to_struct]
                exact hrec
            simp [decElem, encNodeSpec, JX_ELEMENT.type, JX_ELEMENT.element,
              JX_ELEMENT.value_len, htake, hdropl, hnlt, hjs, restoreSpec,
              jx_set_updated, setStatusE, setChildrenE]
          | JX_ARRAY =>
            obtain ⟨hl, hl1, hl255, hchitems, hchsafe⟩ :=
              safeE_array p l vv st ch hs.1
            have hG1 : 1 ≤ G := by
              simp only [needE] at hneedE
              omega
            have harr := decArray_restore G ch 0 mode hG1 hchitems hchsafe
            simp only [List.take_zero, List.drop_zero, restoreListSpec,
              List.nil_append] at harr
            have hlen256 : ch.length % 256 = ch.length :=
              Nat.mod_eq_of_lt (by omega)
            simp [decElem, encNodeSpec, JX_ELEMENT.type, JX_ELEMENT.element,
              JX_ELEMENT.value_len, cJSON_GetArraySize, encItemsSpec_length,
              hlen256, harr, restoreSpec, jx_set_updated, setStatusE,
              setChildrenE, setValueLenE, hl]
      rw [decList, if_pos hprop, hlooke]
      simp [hdecE, ihrest hs.2 hnn.2 hneedR hlookr, restoreListSpec]

/-- C2 (amended): for every well-formed element tree with supported non-Null
element types and storage of the declared shape, non-empty pairwise-distinct
names at object levels, positional scalar array items, and capacities
matching the declared child sequences, encoding succeeds and produces exactly
the value tree `encPairsSpec` describes; decoding that tree back over the
same elements succeeds in both modes with no out-of-bounds child access; and
the resulting element state differs from the original only in status flags
and NUL-padding beyond string terminators — every property-correlated field
value (`summarizeL`) is left equal to its original. -/
theorem jx_c2_roundtrip_safe (elems : List JX_ELEMENT) (mode : JX_PARSE_MODE)
    (F G : Nat) (hs : safeTop elems = true)
    (hF : needL elems ≤ F) (hG : needL elems ≤ G) :
    jx_struct_to_json (F + 1) elems = some (.cObject (encPairsSpec elems)) ∧
    jx_json_to_struct (G + 1) (some (.cObject (encPairsSpec elems))) elems
      mode = ⟨restoreListSpec elems, .JX_SUCCESS, false⟩ ∧
    summarizeL (restoreListSpec elems) = summarizeL elems := by
  rw [safeTop, Bool.and_eq_true, Bool.and_eq_true, Bool.and_eq_true] at hs
  obtain ⟨⟨⟨hne, hnn⟩, hnd⟩, hsl⟩ := hs
  refine ⟨?_, ?_, summarizeL_restore elems hsl⟩
  · cases hc : elems with
    | nil =>
      subst hc
      simp at hne
    | cons e r =>
      subst hc
      show jx_struct_to_object (F + 1) (.cObject []) (e :: r) = _
      simp only [jx_struct_to_object]
      rw [(enc_safe F (e :: r) hsl hF).1]
      simp
  · show jx_object_to_struct (G + 1) (some (.cObject (encPairsSpec elems)))
      elems mode = _
    simp only [jx_object_to_struct]
    exact dec_restore G _ elems mode hsl hnn hG (encPairs_lookup elems hnd)

theorem jx_c2_roundtrip_safe_witness :
    (safeTop exC2w = true ∧ needL exC2w ≤ 1) ∧
    (jx_struct_to_json 2 exC2w = some (.cObject (encPairsSpec exC2w)) ∧
     jx_json_to_struct 2 (some (.cObject (encPairsSpec exC2w))) exC2w
       .JX_MODE_STRICT = ⟨restoreListSpec exC2w, .JX_SUCCESS, false⟩ ∧
     summarizeL (restoreListSpec exC2w) = summarizeL exC2w) :=
  ⟨⟨by simp [safeTop, safeL, safeE, exC2w, strElem, numElem, arrElem,
      namesNonempty, namesDistinct, arrayItemsOk, scalarOkB, isScalarType,
      JX_ELEMENT.property, JX_ELEMENT.type, JX_ELEMENT.value_len,
      JX_ELEMENT.value, JX_ELEMENT.element, nullChar],
    by simp [needL, needE, exC2w, strElem, numElem, arrElem,
      JX_ELEMENT.type]⟩,
   jx_c2_roundtrip_safe exC2w .JX_MODE_STRICT 1 1
     (by simp [safeTop, safeL, safeE, exC2w, strElem, numElem, arrElem,
       namesNonempty, namesDistinct, arrayItemsOk, scalarOkB, isScalarType,
       JX_ELEMENT.property, JX_ELEMENT.type, JX_ELEMENT.value_len,
       JX_ELEMENT.value, JX_ELEMENT.element, nullChar])
     (by simp [needL, needE, exC2w, strElem, numElem, arrElem,
       JX_ELEMENT.type])
     (by simp [needL, needE, exC2w, strElem, numElem, arrElem,
       JX_ELEMENT.type])⟩
